import Mathlib

/-!
Verification of the ReplyGuyAI repository: a shallow embedding of the
extension AI service, the extension storage service, the content
extractor's numeric parser, and the web-app server routes, together with
theorems about the behaviours the specification describes.

Strings are modelled as lists of characters; JavaScript numbers that
occur in the modelled code paths (word counts, token budgets,
temperatures) are modelled as naturals, integers, or exact rationals:
the float literals involved (1.8, 0.8, ...) are only ever combined with
small integers, far away from any rounding boundary, so exact rational
arithmetic agrees with IEEE double arithmetic on every modelled value.
-/

namespace ReplyGuyAI

/-- Strings are modelled as lists of characters. -/
abbrev Str := List Char

/-- JavaScript toLowerCase, character by character. -/
def lowerStr (s : Str) : Str := s.map Char.toLower

/-- Does the first list occur at the start of the second one? -/
def startsWithChars : Str → Str → Bool
  | [], _ => true
  | _ :: _, [] => false
  | a :: as, b :: bs => a == b && startsWithChars as bs

/-- JavaScript String.includes: does the needle occur anywhere in the hay? -/
def subAt : Str → Str → Bool
  | n, [] => startsWithChars n []
  | n, c :: rest => startsWithChars n (c :: rest) || subAt n rest

/-- Math.round for JavaScript numbers modelled as rationals:
round half toward positive infinity. -/
def jsRound (q : ℚ) : ℤ := ⌊q + 1/2⌋

/-! ## AI service (src/extension/services/ai-service.ts) -/

/-- Length enum of the extension CustomizationOptions
(src/extension/types, part of the repository type definitions). -/
inductive ExtLength where
  | small
  | medium
  | large
  | custom
deriving DecidableEq

/-- Mood enum of the extension CustomizationOptions. -/
inductive ExtMood where
  | witty
  | supportive
  | analytical
  | casual
  | professional
  | custom
deriving DecidableEq

/-- Tone enum of the extension CustomizationOptions. -/
inductive Tone where
  | formal
  | informal
  | neutral
deriving DecidableEq

/-- The extension CustomizationOptions record. Optional fields are
modelled as Option. -/
structure ExtCustomization where
  direction : Str
  length : ExtLength
  customLength : Option Nat
  mood : ExtMood
  customMood : Option Str
  tone : Tone
deriving DecidableEq

/-- AIService.getTargetWordCount. The JavaScript expression
customization.customLength with a fallback of 75 treats both a missing
field and the falsy value 0 as absent. -/
def getTargetWordCount (c : ExtCustomization) : Nat :=
  match c.length with
  | .small => 25
  | .medium => 75
  | .large => 150
  | .custom =>
    match c.customLength with
    | none => 75
    | some n => if n = 0 then 75 else n

/-- AIService.getMaxTokens: Math.max(50, Math.min(1000, Math.round(targetWords * 1.8))). -/
def getMaxTokens (c : ExtCustomization) : ℤ :=
  max 50 (min 1000 (jsRound ((getTargetWordCount c : ℚ) * (18/10))))

/-- AIService.getTemperature: switch on the mood; supportive, casual and
custom fall through to the default 0.6. -/
def getTemperature (c : ExtCustomization) : ℚ :=
  match c.mood with
  | .witty => 8/10
  | .analytical => 3/10
  | .professional => 4/10
  | _ => 6/10

/-- AIService.shouldNotRetry: substring checks on the lowercased error
message. -/
def shouldNotRetry (msg : Str) : Bool :=
  let m := lowerStr msg
  if subAt "401".toList m || subAt "403".toList m || subAt "invalid api key".toList m then
    true
  else if subAt "400".toList m || subAt "bad request".toList m then
    true
  else
    false

/-- Outcome of a single fetch attempt inside AIService.makeAPIRequest:
either a content string extracted from a successful response, or the
message of the error thrown by that attempt. -/
inductive AttemptResult where
  | success (content : Str)
  | failure (message : Str)
deriving DecidableEq

/-- Result of AIService.makeAPIRequest: the returned content or the
surfaced error. -/
inductive ReqOutcome where
  | ok (content : Str)
  | err (message : Str)
deriving DecidableEq

/-- Observable trace of AIService.makeAPIRequest: its outcome, the number
of attempts performed, and the sequence of backoff delays slept (ms). -/
structure RequestTrace where
  result : ReqOutcome
  attempts : Nat
  delays : List Nat
deriving DecidableEq

/-- AIService maxRetries field. -/
def maxRetries : Nat := 3

/-- AIService retryDelay field (base delay, ms). -/
def retryDelay : Nat := 1000

/-- The retry loop of AIService.makeAPIRequest, one-based attempt
counter. The fuel argument only bounds the recursion so that the
definition is structural; makeAPIRequest supplies fuel = maxRetries,
which the guard attempt < maxRetries never exhausts. -/
def runLoop (att : Nat → AttemptResult) : Nat → Nat → RequestTrace
  | fuel, attempt =>
    match att attempt with
    | .success c => ⟨.ok c, 1, []⟩
    | .failure e =>
      if shouldNotRetry e then ⟨.err e, 1, []⟩
      else if attempt < maxRetries then
        match fuel with
        | 0 => ⟨.err e, 1, []⟩
        | f + 1 =>
          let t := runLoop att f (attempt + 1)
          ⟨t.result, t.attempts + 1, retryDelay * 2 ^ (attempt - 1) :: t.delays⟩
      else ⟨.err e, 1, []⟩

/-- AIService.makeAPIRequest as a function of the per-attempt outcomes. -/
def makeAPIRequest (att : Nat → AttemptResult) : RequestTrace :=
  runLoop att maxRetries 1

/-- A persistently failing transient attempt stream: every attempt fails
with a plain network error message, which shouldNotRetry classifies as
retryable. -/
def transientAttempts : Nat → AttemptResult :=
  fun _ => .failure "network error".toList

/-- An attempt stream that always fails with the HTTP 401 error message
built by makeAPIRequest from a non-ok response. -/
def authAttempts : Nat → AttemptResult :=
  fun _ => .failure "OpenAI API error: 401 - Incorrect API key provided".toList

/-- AIService.countWords relies on trim and a whitespace split; these are
shared with the server word count below. Predicate for a non-whitespace
character. -/
def notWs (c : Char) : Bool := !c.isWhitespace

/-- JavaScript String.trim: drop leading and trailing whitespace. -/
def jsTrim (l : Str) : Str :=
  List.rdropWhile Char.isWhitespace (l.dropWhile Char.isWhitespace)

/-- JavaScript String.split on one-or-more whitespace: the pieces between
maximal whitespace runs, keeping an empty piece at either end when the
string starts or ends with whitespace (and the piece list of the empty
string is a single empty piece). -/
def splitWs (l : Str) : List Str :=
  if h : l.dropWhile notWs = [] then [l.takeWhile notWs]
  else
    (l.takeWhile notWs) :: splitWs ((l.dropWhile notWs).dropWhile Char.isWhitespace)
termination_by l.length
decreasing_by
  have hhead := List.head_dropWhile_not notWs l h
  have hcons := List.head_cons_tail (l.dropWhile notWs) h
  have hws : Char.isWhitespace ((l.dropWhile notWs).head h) = true := by
    simpa [notWs] using hhead
  calc ((l.dropWhile notWs).dropWhile Char.isWhitespace).length
      = (((l.dropWhile notWs).head h :: (l.dropWhile notWs).tail).dropWhile
          Char.isWhitespace).length := by rw [hcons]
    _ = ((l.dropWhile notWs).tail.dropWhile Char.isWhitespace).length := by
          rw [List.dropWhile_cons_of_pos hws]
    _ ≤ (l.dropWhile notWs).tail.length := (List.dropWhile_sublist _).length_le
    _ < (l.dropWhile notWs).length := by
          conv_rhs => rw [← hcons]
          exact Nat.lt_succ_self _
    _ ≤ l.length := (List.dropWhile_sublist _).length_le

/-- AIService.countWords: trim, split on whitespace runs, keep the
non-empty pieces, count them. -/
def countWords (text : Str) : Nat :=
  ((splitWs (jsTrim text)).filter (fun w => decide (w.length > 0))).length

/-- AIService.calculateReadTime: Math.max(1, Math.round(wordCount / 200)). -/
def calculateReadTime (text : Str) : ℤ :=
  max 1 (jsRound ((countWords text : ℚ) / 200))

/-- The maximal non-whitespace runs of a string: the list of its
whitespace-separated non-empty tokens, used as the specification-side
token count that countWords is compared against. -/
def wsTokens : Str → List Str
  | [] => []
  | c :: rest =>
    if c.isWhitespace then wsTokens rest
    else (c :: rest.takeWhile notWs) :: wsTokens (rest.dropWhile notWs)
termination_by l => l.length
decreasing_by
  · simp
  · exact Nat.lt_succ_of_le (List.dropWhile_sublist _).length_le

/-! ## Storage service (src/extension/services/storage-service.ts) -/

/-- Partial default customization stored inside the settings record
(Partial of CustomizationOptions). -/
structure PartialCustomization where
  length : Option ExtLength
  customLength : Option Nat
  mood : Option ExtMood
  customMood : Option Str
  tone : Option Tone
deriving DecidableEq

/-- The ExtensionSettings record. -/
structure ExtensionSettings where
  openaiApiKey : Str
  defaultCustomization : PartialCustomization
  autoDetectContext : Bool
  saveHistory : Bool
  darkMode : Bool
deriving DecidableEq

/-- Partial of ExtensionSettings, as accepted by updateSettings and by
the settings part of an import payload: a field that is absent in the
JavaScript object is none. -/
structure PartialSettings where
  openaiApiKey : Option Str
  defaultCustomization : Option PartialCustomization
  autoDetectContext : Option Bool
  saveHistory : Option Bool
  darkMode : Option Bool
deriving DecidableEq

/-- StorageService.updateSettings: spread of the partial update over the
current settings, field by field. -/
def updateSettings (cur : ExtensionSettings) (p : PartialSettings) : ExtensionSettings :=
  { openaiApiKey := p.openaiApiKey.getD cur.openaiApiKey
    defaultCustomization := p.defaultCustomization.getD cur.defaultCustomization
    autoDetectContext := p.autoDetectContext.getD cur.autoDetectContext
    saveHistory := p.saveHistory.getD cur.saveHistory
    darkMode := p.darkMode.getD cur.darkMode }

/-- A ReplyHistory entry. Timestamps are modelled as naturals (epoch
milliseconds). -/
structure ReplyHistoryEntry where
  id : Str
  postId : Str
  postTitle : Str
  reply : Str
  customization : ExtCustomization
  timestamp : Nat
  wordCount : Nat
  subreddit : Str
deriving DecidableEq

/-- Ordering used by getReplyHistory: an entry may precede another when
its timestamp is at least as large (newest first). -/
def histLE (a b : ReplyHistoryEntry) : Prop := b.timestamp ≤ a.timestamp

instance : DecidableRel histLE := fun a b => Nat.decLe b.timestamp a.timestamp

instance : IsTotal ReplyHistoryEntry histLE :=
  ⟨fun a b => Nat.le_total b.timestamp a.timestamp⟩

instance : IsTrans ReplyHistoryEntry histLE :=
  ⟨fun _ _ _ h1 h2 => Nat.le_trans h2 h1⟩

/-- The sort performed by getReplyHistory: by timestamp, newest first. -/
def sortHistory (l : List ReplyHistoryEntry) : List ReplyHistoryEntry :=
  List.insertionSort histLE l

/-- The state held by chrome storage for the extension: the settings
record and the stored history list. -/
structure StorageState where
  settings : ExtensionSettings
  history : List ReplyHistoryEntry
deriving DecidableEq

/-- StorageService.getReplyHistory without a limit argument: the stored
history sorted newest first. -/
def getReplyHistory (st : StorageState) : List ReplyHistoryEntry :=
  sortHistory st.history

/-- StorageService.addToHistory: skip when saveHistory is off; otherwise
unshift onto the sorted history and splice down to 500 entries. -/
def addToHistory (st : StorageState) (r : ReplyHistoryEntry) : StorageState :=
  if st.settings.saveHistory then
    { st with history := (r :: getReplyHistory st).take 500 }
  else st

/-- StorageService.removeFromHistory: filter the sorted history by id. -/
def removeFromHistory (st : StorageState) (replyId : Str) : StorageState :=
  { st with history := (getReplyHistory st).filter (fun e => !(e.id == replyId)) }

/-- StorageService.clearHistory. -/
def clearHistory (st : StorageState) : StorageState :=
  { st with history := [] }

/-- An import payload: optional settings part and optional history part. -/
structure ImportPayload where
  settings : Option PartialSettings
  history : Option (List ReplyHistoryEntry)
deriving DecidableEq

/-- StorageService.importData: the settings part is applied through
updateSettings with the openaiApiKey field destructured away; the history
part is appended to the existing (sorted) history after dropping entries
whose id already occurs. -/
def importData (st : StorageState) (d : ImportPayload) : StorageState :=
  let st1 :=
    match d.settings with
    | none => st
    | some ps => { st with settings := updateSettings st.settings { ps with openaiApiKey := none } }
  match d.history with
  | none => st1
  | some imp =>
    let existing := getReplyHistory st1
    let existingIds := existing.map (fun e => e.id)
    let newHistory := imp.filter (fun e => !(existingIds.contains e.id))
    { st1 with history := existing ++ newHistory }

/-- The export payload built by exportData; the export timestamp is the
clock reading passed in by the caller. -/
structure ExportPayload where
  settings : ExtensionSettings
  history : List ReplyHistoryEntry
  exportTimestamp : Str
  version : Str
deriving DecidableEq

/-- StorageService.exportData: the stored settings with the API key field
replaced by the fixed redaction marker, plus the sorted history. -/
def exportData (st : StorageState) (now : Str) : ExportPayload :=
  { settings := { st.settings with openaiApiKey := "[REDACTED]".toList }
    history := getReplyHistory st
    exportTimestamp := now
    version := "2.0.0".toList }

/-- A history-touching storage operation other than import. -/
inductive HistOp where
  | add (r : ReplyHistoryEntry)
  | remove (replyId : Str)
  | clear

/-- Interpretation of a history operation on the storage state. -/
def applyHistOp (st : StorageState) : HistOp → StorageState
  | .add r => addToHistory st r
  | .remove i => removeFromHistory st i
  | .clear => clearHistory st

/-! ## Content extractor numeric parser
(src/extension/content/reddit-extractor.ts) -/

/-- The character class kept by the cleaning regex of
RedditExtractor.parseNumber: digits, the dot, and the k/K/m/M suffix
letters. -/
def keepNumChar (c : Char) : Bool :=
  c.isDigit || c == '.' || c == 'k' || c == 'K' || c == 'm' || c == 'M'

/-- Value of a digit string read left to right. -/
def digitsToNat (s : Str) : Nat :=
  s.foldl (fun n c => 10 * n + (c.toNat - '0'.toNat)) 0

/-- JavaScript parseFloat restricted to the character class produced by
the cleaning step (no sign, no exponent): longest prefix of the shape
digits, optional dot, digits; NaN (none) when that prefix holds no
digit. -/
def parseFloatQ (s : Str) : Option ℚ :=
  let intDigits := s.takeWhile Char.isDigit
  let rest := s.dropWhile Char.isDigit
  let fracDigits :=
    match rest with
    | '.' :: r => r.takeWhile Char.isDigit
    | _ => []
  if intDigits.isEmpty && fracDigits.isEmpty then none
  else some ((digitsToNat intDigits : ℚ) + (digitsToNat fracDigits : ℚ) / 10 ^ fracDigits.length)

/-- RedditExtractor.parseNumber: clean the text, parse it as a float, and
scale by 1000 or 1000000 when a k or m suffix letter survived the
cleaning. -/
def parseNumber (text : Str) : Option ℤ :=
  let cleaned := text.filter keepNumChar
  if cleaned.isEmpty then none
  else
    match parseFloatQ cleaned with
    | none => none
    | some num =>
      if (lowerStr cleaned).contains 'k' then some (jsRound (num * 1000))
      else if (lowerStr cleaned).contains 'm' then some (jsRound (num * 1000000))
      else some (jsRound num)

/-! ## Web-app server (src/server/routes.ts, src/server/storage.ts) -/

/-- Length enum of the server customization schema (shared zod schema). -/
inductive SrvLength where
  | small
  | medium
  | long
  | custom
deriving DecidableEq

/-- Mood enum of the server customization schema. -/
inductive SrvMood where
  | witty
  | comforting
  | sad
  | custom
deriving DecidableEq

/-- A customization accepted by generateReplySchema. -/
structure SrvCustomization where
  direction : Str
  length : SrvLength
  customLength : Option Nat
  mood : SrvMood
  customMood : Option Str
deriving DecidableEq

/-- The target word count switch of the server generateAIReply helper;
the falsy fallback of customization.customLength is 50. -/
def serverTargetWords (c : SrvCustomization) : Nat :=
  match c.length with
  | .small => 20
  | .medium => 50
  | .long => 100
  | .custom =>
    match c.customLength with
    | none => 50
    | some n => if n = 0 then 50 else n

/-- The max_tokens value sent by the server generateAIReply helper:
Math.max(targetWords * 2, 100). -/
def serverMaxTokens (c : SrvCustomization) : Nat :=
  max (serverTargetWords c * 2) 100

/-- The temperature sent by the server generateAIReply helper. -/
def serverTemperature : ℚ := 7/10

/-- The content string the server generateAIReply helper derives from the
completion response: the trimmed model output, or the fixed fallback text
when the output was absent or trimmed to nothing (both falsy). -/
def serverContentOf (raw : Option Str) : Str :=
  match raw with
  | none => "Failed to generate reply".toList
  | some r =>
    let t := jsTrim r
    if t.isEmpty then "Failed to generate reply".toList else t

/-- The word count computed by the server generateAIReply helper:
content.split on whitespace runs, length, with no emptiness filter. -/
def serverWordCount (content : Str) : Nat :=
  (splitWs content).length

/-- A stored Reddit post of the web app (shared schema redditPosts row). -/
structure SRedditPost where
  id : Nat
  url : Str
  title : Str
  content : Str
  author : Str
  subreddit : Str
  upvotes : Int
  comments : Int
  createdAt : Nat
deriving DecidableEq

/-- A stored AI reply of the web app (shared schema aiReplies row). -/
structure SAiReply where
  id : Nat
  postId : Nat
  content : Str
  direction : Str
  mood : Str
  length : Str
  wordCount : Nat
  createdAt : Nat
deriving DecidableEq

/-- The fields of an insertRedditPost payload. -/
structure InsertRedditPost where
  url : Str
  title : Str
  content : Str
  author : Str
  subreddit : Str
  upvotes : Int
  comments : Int
deriving DecidableEq

/-- MemStorage: maps keyed by auto-incrementing ids, modelled as lists in
insertion order (JavaScript Map values iterate in insertion order). -/
structure MemStorage where
  redditPosts : List SRedditPost
  currentPostId : Nat
  aiReplies : List SAiReply
  currentReplyId : Nat
deriving DecidableEq

/-- The empty MemStorage built by its constructor. -/
def emptyStorage : MemStorage := ⟨[], 1, [], 1⟩

/-- MemStorage.getRedditPostByUrl: first stored post with the given url,
in insertion order. -/
def getRedditPostByUrl (st : MemStorage) (url : Str) : Option SRedditPost :=
  st.redditPosts.find? (fun p => p.url == url)

/-- MemStorage.createRedditPost: assign the current post id, append, and
bump the counter. -/
def createRedditPost (st : MemStorage) (ins : InsertRedditPost) (now : Nat) :
    SRedditPost × MemStorage :=
  let post : SRedditPost :=
    { id := st.currentPostId
      url := ins.url
      title := ins.title
      content := ins.content
      author := ins.author
      subreddit := ins.subreddit
      upvotes := ins.upvotes
      comments := ins.comments
      createdAt := now }
  (post, { st with redditPosts := st.redditPosts ++ [post], currentPostId := st.currentPostId + 1 })

/-- MemStorage.createAiReply. -/
def createAiReply (st : MemStorage) (postId : Nat) (content : Str)
    (direction mood length : Str) (wordCount : Nat) (now : Nat) :
    SAiReply × MemStorage :=
  let reply : SAiReply :=
    { id := st.currentReplyId
      postId := postId
      content := content
      direction := direction
      mood := mood
      length := length
      wordCount := wordCount
      createdAt := now }
  (reply, { st with aiReplies := st.aiReplies ++ [reply], currentReplyId := st.currentReplyId + 1 })

/-- MemStorage.getAiRepliesByPostId; the route parses the path parameter
with parseInt, so a non-numeric parameter (NaN, modelled as none) matches
no stored reply. -/
def getAiRepliesByPostId (st : MemStorage) (postId : Option Nat) : List SAiReply :=
  st.aiReplies.filter (fun r =>
    match postId with
    | some i => r.postId == i
    | none => false)

/-- Body of an HTTP response sent by the routes. -/
inductive RespBody where
  | postBody (p : SRedditPost)
  | replyBody (r : SAiReply)
  | repliesBody (rs : List SAiReply)
  | messageBody (m : Str)
deriving DecidableEq

/-- An HTTP response: status code plus JSON body; res.json alone responds
with status 200. -/
structure Response where
  status : Nat
  body : RespBody
deriving DecidableEq

/-- The data extracted from Reddit by fetchRedditContent on success. -/
structure RedditData where
  title : Str
  content : Str
  author : Str
  subreddit : Str
  upvotes : Int
  comments : Int
deriving DecidableEq

/-- POST /api/reddit/fetch. The zod parse of the body and the outbound
fetchRedditContent call are inputs: an exception in either is its error
message, and every exception is answered with status 400 and a message
body by the catch block. -/
def fetchRoute (st : MemStorage) (parsed : Except Str Str)
    (fetched : Except Str RedditData) (now : Nat) : Response × MemStorage :=
  match parsed with
  | .error e => (⟨400, .messageBody e⟩, st)
  | .ok url =>
    match getRedditPostByUrl st url with
    | some existing => (⟨200, .postBody existing⟩, st)
    | none =>
      match fetched with
      | .error e => (⟨400, .messageBody e⟩, st)
      | .ok d =>
        let (post, st') := createRedditPost st
          { url := url, title := d.title, content := d.content, author := d.author
            subreddit := d.subreddit, upvotes := d.upvotes, comments := d.comments } now
        (⟨200, .postBody post⟩, st')

/-- JavaScript falsiness of an optional string field: absent or empty. -/
def strFalsy : Option Str → Bool
  | none => true
  | some s => s.isEmpty

/-- Fallback of a JavaScript or-expression over an optional string. -/
def strOr (o : Option Str) (d : Str) : Str :=
  if strFalsy o then d else o.getD d

/-- Fallback of a JavaScript or-expression over an optional number. -/
def intOr (o : Option Int) (d : Int) : Int :=
  match o with
  | none => d
  | some n => if n = 0 then d else n

/-- POST /api/reddit/manual: requires truthy url, title and content
(400 otherwise), returns an existing post for the url unchanged, and
otherwise stores the manual post with unknown/zero fallbacks. -/
def manualRoute (st : MemStorage) (url title content author subreddit : Option Str)
    (upvotes comments : Option Int) (now : Nat) : Response × MemStorage :=
  if strFalsy url || strFalsy title || strFalsy content then
    (⟨400, .messageBody "URL, title, and content are required".toList⟩, st)
  else
    let u := url.getD []
    match getRedditPostByUrl st u with
    | some existing => (⟨200, .postBody existing⟩, st)
    | none =>
      let (post, st') := createRedditPost st
        { url := u, title := title.getD [], content := content.getD []
          author := strOr author "unknown".toList
          subreddit := strOr subreddit "unknown".toList
          upvotes := intOr upvotes 0, comments := intOr comments 0 } now
      (⟨200, .postBody post⟩, st')

/-- Output of the server generateAIReply helper. -/
structure GenOut where
  content : Str
  wordCount : Nat
deriving DecidableEq

/-- POST /api/reply/generate. The zod parse of the body and the
generateAIReply call are inputs; exceptions from either are answered with
status 500 and a message body by the catch block, and a missing post for
the url is answered with 404. -/
def generateRoute (st : MemStorage) (parsed : Except Str (Str × SrvCustomization))
    (gen : Except Str GenOut) (now : Nat) : Response × MemStorage :=
  match parsed with
  | .error e => (⟨500, .messageBody e⟩, st)
  | .ok (redditUrl, customization) =>
    match getRedditPostByUrl st redditUrl with
    | none => (⟨404, .messageBody "Reddit post not found. Please fetch it first.".toList⟩, st)
    | some post =>
      match gen with
      | .error e => (⟨500, .messageBody e⟩, st)
      | .ok out =>
        let moodStr :=
          match customization.mood with
          | .custom => customization.customMood.getD []
          | .witty => "witty".toList
          | .comforting => "comforting".toList
          | .sad => "sad".toList
        let lengthStr :=
          match customization.length with
          | .small => "small".toList
          | .medium => "medium".toList
          | .long => "long".toList
          | .custom => "custom".toList
        let (reply, st') := createAiReply st post.id out.content customization.direction
          moodStr lengthStr out.wordCount now
        (⟨200, .replyBody reply⟩, st')

/-- GET /api/reply/:postId: always answers 200 with the filtered list
(a non-numeric id parses to NaN and matches nothing). -/
def repliesRoute (st : MemStorage) (postId : Option Nat) : Response × MemStorage :=
  (⟨200, .repliesBody (getAiRepliesByPostId st postId)⟩, st)

/-- Shape of every route response: either a 200 success or an error
status from the fixed set with a message-object body. -/
def errorContract (r : Response) : Prop :=
  r.status = 200 ∨
    ((r.status = 400 ∨ r.status = 404 ∨ r.status = 500) ∧ ∃ m, r.body = .messageBody m)

/-! ## Concrete inputs used by witnesses and counterexamples -/

/-- A small witty customization. -/
def cWittySmall : ExtCustomization :=
  { direction := [], length := .small, customLength := none, mood := .witty
    customMood := none, tone := .neutral }

/-- A large witty customization: same mood as cWittySmall, other length. -/
def cWittyLarge : ExtCustomization :=
  { direction := [], length := .large, customLength := none, mood := .witty
    customMood := none, tone := .neutral }

/-- A small supportive customization: same length as cWittySmall, other
mood. -/
def cSupportiveSmall : ExtCustomization :=
  { direction := [], length := .small, customLength := none, mood := .supportive
    customMood := none, tone := .neutral }

/-- An extension customization asking for a custom length of 42 words. -/
def cCustom42 : ExtCustomization :=
  { direction := [], length := .custom, customLength := some 42, mood := .witty
    customMood := none, tone := .neutral }

/-- A small witty server customization. -/
def sWittySmall : SrvCustomization :=
  { direction := [], length := .small, customLength := none, mood := .witty
    customMood := none }

/-- A long witty server customization. -/
def sWittyLong : SrvCustomization :=
  { direction := [], length := .long, customLength := none, mood := .witty
    customMood := none }

/-- A small comforting server customization. -/
def sComfortingSmall : SrvCustomization :=
  { direction := [], length := .small, customLength := none, mood := .comforting
    customMood := none }

/-- A server customization asking for a custom length of 42 words. -/
def sCustom42 : SrvCustomization :=
  { direction := [], length := .custom, customLength := some 42, mood := .witty
    customMood := none }

/-- An empty partial default customization. -/
def noDefaults : PartialCustomization := ⟨none, none, none, none, none⟩

/-- Settings with history saving switched on. -/
def settingsOn : ExtensionSettings :=
  { openaiApiKey := [], defaultCustomization := noDefaults
    autoDetectContext := true, saveHistory := true, darkMode := false }

/-- A history entry whose timestamp is the given number. -/
def mkEntry (i : Nat) : ReplyHistoryEntry :=
  { id := [], postId := [], postTitle := [], reply := [], customization := cWittySmall
    timestamp := i, wordCount := 0, subreddit := [] }

/-- Storage state with an empty history. -/
def stEmptyHist : StorageState := ⟨settingsOn, []⟩

/-- Storage state holding exactly 500 history entries. -/
def st500 : StorageState := ⟨settingsOn, (List.range 500).map mkEntry⟩

/-- An import payload carrying 501 history entries and no settings. -/
def importOverflow : ImportPayload := ⟨none, some (List.replicate 501 (mkEntry 0))⟩

/-- A stored server post used by route witnesses. -/
def p0 : SRedditPost :=
  { id := 1, url := "https://reddit.com/r/test/comments/1/x".toList
    title := "Test".toList, content := "Hello".toList, author := "unknown".toList
    subreddit := "unknown".toList, upvotes := 0, comments := 0, createdAt := 0 }

/-- Server storage holding exactly the post p0. -/
def stOne : MemStorage := ⟨[p0], 2, [], 1⟩

/-! ## Theorems -/

/-- Claim C3: the target word count handed to the prompt builder lies in
20-25 for small, 50-75 for medium, 100-150 for long/large, and equals the
user value exactly for a custom length N with 5 <= N <= 500, in both the
extension AI service and the server generate helper. -/
theorem target_word_count_ranges (c : ExtCustomization) (s : SrvCustomization) :
    (c.length = .small → 20 ≤ getTargetWordCount c ∧ getTargetWordCount c ≤ 25) ∧
    (c.length = .medium → 50 ≤ getTargetWordCount c ∧ getTargetWordCount c ≤ 75) ∧
    (c.length = .large → 100 ≤ getTargetWordCount c ∧ getTargetWordCount c ≤ 150) ∧
    (∀ n, c.length = .custom → c.customLength = some n → 5 ≤ n → n ≤ 500 →
      getTargetWordCount c = n) ∧
    (s.length = .small → 20 ≤ serverTargetWords s ∧ serverTargetWords s ≤ 25) ∧
    (s.length = .medium → 50 ≤ serverTargetWords s ∧ serverTargetWords s ≤ 75) ∧
    (s.length = .long → 100 ≤ serverTargetWords s ∧ serverTargetWords s ≤ 150) ∧
    (∀ n, s.length = .custom → s.customLength = some n → 5 ≤ n → n ≤ 500 →
      serverTargetWords s = n) := by
  refine ⟨?_, ?_, ?_, ?_, ?_, ?_, ?_, ?_⟩
  · intro h; simp [getTargetWordCount, h]
  · intro h; simp [getTargetWordCount, h]
  · intro h; simp [getTargetWordCount, h]
  · intro n h hc h5 _
    simp only [getTargetWordCount, h, hc]
    rw [if_neg (by omega)]
  · intro h; simp [serverTargetWords, h]
  · intro h; simp [serverTargetWords, h]
  · intro h; simp [serverTargetWords, h]
  · intro n h hc h5 _
    simp only [serverTargetWords, h, hc]
    rw [if_neg (by omega)]

/-- Witness for C3: a custom length of 42 is forwarded exactly by both
implementations. -/
theorem target_word_count_ranges_witness :
    getTargetWordCount cCustom42 = 42 ∧ serverTargetWords sCustom42 = 42 :=
  ⟨(target_word_count_ranges cCustom42 sCustom42).2.2.2.1 42 rfl rfl
      (by decide) (by decide),
   (target_word_count_ranges cCustom42 sCustom42).2.2.2.2.2.2.2 42 rfl rfl
      (by decide) (by decide)⟩

/-- Claim C7 (amended): the sampling temperature of the extension service
is a function of the mood alone, while the max-token budgets of both
implementations are functions of the target word count, which the length
settings determine. -/
theorem token_budget_and_temperature (c1 c2 : ExtCustomization)
    (s1 s2 : SrvCustomization) :
    (c1.mood = c2.mood → getTemperature c1 = getTemperature c2) ∧
    (getTargetWordCount c1 = getTargetWordCount c2 → getMaxTokens c1 = getMaxTokens c2) ∧
    (serverTargetWords s1 = serverTargetWords s2 →
      serverMaxTokens s1 = serverMaxTokens s2) := by
  refine ⟨?_, ?_, ?_⟩
  · intro h; simp [getTemperature, h]
  · intro h; simp [getMaxTokens, h]
  · intro h; simp [serverMaxTokens, h]

/-- Counterexample for C7 as stated: two customizations with the same
mood (witty) but different lengths receive different max-token budgets,
in the extension service and in the server helper alike. -/
theorem mood_budget_counterexample :
    cWittySmall.mood = cWittyLarge.mood ∧
    getMaxTokens cWittySmall = 50 ∧
    getMaxTokens cWittyLarge = 270 ∧
    getMaxTokens cWittySmall ≠ getMaxTokens cWittyLarge ∧
    sWittySmall.mood = sWittyLong.mood ∧
    serverMaxTokens sWittySmall = 100 ∧
    serverMaxTokens sWittyLong = 200 ∧
    serverMaxTokens sWittySmall ≠ serverMaxTokens sWittyLong := by
  have h1 : getMaxTokens cWittySmall = 50 := by
    norm_num [getMaxTokens, jsRound, getTargetWordCount, cWittySmall]
  have h2 : getMaxTokens cWittyLarge = 270 := by
    norm_num [getMaxTokens, jsRound, getTargetWordCount, cWittyLarge]
  refine ⟨rfl, h1, h2, ?_, rfl, by decide, by decide, by decide⟩
  rw [h1, h2]; decide

/-- Witness for C7: applying the amended statement at concrete inputs
with equal moods and equal target word counts. -/
theorem token_budget_and_temperature_witness :
    getTemperature cWittySmall = getTemperature cWittyLarge ∧
    getMaxTokens cWittySmall = getMaxTokens cSupportiveSmall ∧
    serverMaxTokens sWittySmall = serverMaxTokens sComfortingSmall :=
  ⟨(token_budget_and_temperature cWittySmall cWittyLarge sWittySmall sWittyLong).1 rfl,
   (token_budget_and_temperature cWittySmall cSupportiveSmall sWittySmall
      sComfortingSmall).2.1 (by decide),
   (token_budget_and_temperature cWittySmall cSupportiveSmall sWittySmall
      sComfortingSmall).2.2 (by decide)⟩

/-- Claim C5: exportData always returns the fixed redaction marker in the
API key field, and the entire export is unchanged when only the stored
API key changes. -/
theorem export_redacts_api_key (st : StorageState) (now : Str) :
    (exportData st now).settings.openaiApiKey = "[REDACTED]".toList ∧
    ∀ k1 k2 : Str,
      exportData { st with settings := { st.settings with openaiApiKey := k1 } } now =
      exportData { st with settings := { st.settings with openaiApiKey := k2 } } now := by
  exact ⟨rfl, fun k1 k2 => rfl⟩

/-- Claim C1 (amended): an attempt failing with an error that
shouldNotRetry classifies as fatal (401/403/400 and friends) surfaces at
once after a single attempt with no backoff sleeps, while persistently
transient failures lead to three attempts in total, separated by backoff
delays of 1000 ms and then 2000 ms, before the last error is surfaced. -/
theorem retry_policy (att : Nat → AttemptResult) :
    (∀ e, att 1 = .failure e → shouldNotRetry e = true →
      makeAPIRequest att = ⟨.err e, 1, []⟩) ∧
    ((∀ i, 1 ≤ i → i ≤ 3 → ∃ e, att i = .failure e ∧ shouldNotRetry e = false) →
      ∃ e3, att 3 = .failure e3 ∧ makeAPIRequest att = ⟨.err e3, 3, [1000, 2000]⟩) := by
  constructor
  · intro e h1 h2
    simp [makeAPIRequest, runLoop, maxRetries, h1, h2]
  · intro htrans
    obtain ⟨e1, he1, hs1⟩ := htrans 1 (by decide) (by decide)
    obtain ⟨e2, he2, hs2⟩ := htrans 2 (by decide) (by decide)
    obtain ⟨e3, he3, hs3⟩ := htrans 3 (by decide) (by decide)
    refine ⟨e3, he3, ?_⟩
    simp [makeAPIRequest, runLoop, maxRetries, retryDelay,
      he1, hs1, he2, hs2, he3, hs3]

/-- Witness for C1: the auth failure stream stops after one attempt and
the transient stream exhausts three attempts with delays 1000 and 2000. -/
theorem retry_policy_witness :
    makeAPIRequest authAttempts =
      ⟨.err "OpenAI API error: 401 - Incorrect API key provided".toList, 1, []⟩ ∧
    ∃ e3, transientAttempts 3 = .failure e3 ∧
      makeAPIRequest transientAttempts = ⟨.err e3, 3, [1000, 2000]⟩ :=
  ⟨(retry_policy authAttempts).1 _ rfl (by decide),
   (retry_policy transientAttempts).2 (fun i _ _ => ⟨_, rfl, by decide⟩)⟩

/-- Counterexample for C1 as stated: when every attempt fails with a
transient network error, the loop performs exactly three attempts, that
is, the initial attempt and two retries, not three retries, before the
error is surfaced. -/
theorem retry_count_counterexample :
    makeAPIRequest transientAttempts = ⟨.err "network error".toList, 3, [1000, 2000]⟩ ∧
    (makeAPIRequest transientAttempts).attempts - 1 = 2 ∧ (2 : Nat) ≠ 3 := by
  refine ⟨by decide, by decide, by decide⟩

/-- Claim C9: every response of the four web-app routes is either a 200
success or carries a status from 400/404/500 together with a
message-object body; and generating against a url with no stored post
answers 404 with the fixed message. -/
theorem http_error_contract :
    (∀ st parsed fetched now, errorContract (fetchRoute st parsed fetched now).1) ∧
    (∀ st url title content author subreddit upvotes comments now,
      errorContract
        (manualRoute st url title content author subreddit upvotes comments now).1) ∧
    (∀ st parsed gen now, errorContract (generateRoute st parsed gen now).1) ∧
    (∀ st postId, errorContract (repliesRoute st postId).1) ∧
    (∀ st url cust gen now, getRedditPostByUrl st url = none →
      (generateRoute st (.ok (url, cust)) gen now).1 =
        ⟨404, .messageBody "Reddit post not found. Please fetch it first.".toList⟩) := by
  refine ⟨?_, ?_, ?_, ?_, ?_⟩
  · intro st parsed fetched now
    rcases parsed with e | url
    · exact Or.inr ⟨Or.inl rfl, e, rfl⟩
    · rcases hfind : getRedditPostByUrl st url with _ | p
      · rcases fetched with e | d
        · simp [fetchRoute, hfind, errorContract]
        · simp [fetchRoute, hfind, errorContract, createRedditPost]
      · simp [fetchRoute, hfind, errorContract]
  · intro st url title content author subreddit upvotes comments now
    by_cases hreq : (strFalsy url || strFalsy title || strFalsy content) = true
    · simp [manualRoute, hreq, errorContract]
    · rcases hfind : getRedditPostByUrl st (url.getD []) with _ | p
      · simp [manualRoute, hreq, hfind, errorContract, createRedditPost]
      · simp [manualRoute, hreq, hfind, errorContract]
  · intro st parsed gen now
    rcases parsed with e | ⟨url, cust⟩
    · exact Or.inr ⟨Or.inr (Or.inr rfl), e, rfl⟩
    · rcases hfind : getRedditPostByUrl st url with _ | p
      · simp [generateRoute, hfind, errorContract]
      · rcases gen with e | out
        · simp [generateRoute, hfind, errorContract]
        · simp [generateRoute, hfind, errorContract, createAiReply]
  · intro st postId
    exact Or.inl rfl
  · intro st url cust gen now hfind
    simp [generateRoute, hfind]

/-- Witness for C9: on the empty storage, generating for an unknown url
answers 404 with the fixed message. -/
theorem http_error_contract_witness :
    (generateRoute emptyStorage
        (.ok ("https://reddit.com/r/test/comments/1/x".toList, sWittySmall))
        (.error []) 0).1 =
      ⟨404, .messageBody "Reddit post not found. Please fetch it first.".toList⟩ :=
  http_error_contract.2.2.2.2 emptyStorage
    "https://reddit.com/r/test/comments/1/x".toList sWittySmall (.error []) 0 rfl

/-- Claim C10: when a post with the requested url is already stored, both
POST /api/reddit/fetch and POST /api/reddit/manual return that stored
post with status 200 and leave the storage, including the id counter,
untouched, so repeated calls with the same url answer identically. -/
theorem fetch_manual_idempotent (st : MemStorage) (u : Str) (p : SRedditPost)
    (hp : getRedditPostByUrl st u = some p) :
    (∀ fetched now, fetchRoute st (.ok u) fetched now = (⟨200, .postBody p⟩, st)) ∧
    (∀ t c author subreddit upvotes comments now,
      u.isEmpty = false → t.isEmpty = false → c.isEmpty = false →
      manualRoute st (some u) (some t) (some c) author subreddit upvotes comments now =
        (⟨200, .postBody p⟩, st)) := by
  constructor
  · intro fetched now
    simp [fetchRoute, hp]
  · intro t c author subreddit upvotes comments now hu ht hc
    simp [manualRoute, strFalsy, hu, ht, hc, hp]

/-- Witness for C10: with the single stored post p0, both routes return
p0 and leave the storage unchanged. -/
theorem fetch_manual_idempotent_witness :
    fetchRoute stOne (.ok p0.url) (.error []) 7 = (⟨200, .postBody p0⟩, stOne) ∧
    manualRoute stOne (some p0.url) (some "Test".toList) (some "Hello".toList)
        none none none none 7 = (⟨200, .postBody p0⟩, stOne) :=
  ⟨(fetch_manual_idempotent stOne p0.url p0 (by decide)).1 (.error []) 7,
   (fetch_manual_idempotent stOne p0.url p0 (by decide)).2 "Test".toList "Hello".toList
      none none none none 7 (by decide) (by decide) (by decide)⟩

/-- Sorting the history does not change its length. -/
theorem sortHistory_length (l : List ReplyHistoryEntry) :
    (sortHistory l).length = l.length :=
  (List.perm_insertionSort histLE l).length_eq

/-- Sorting the history does not change its members. -/
theorem mem_sortHistory {x : ReplyHistoryEntry} {l : List ReplyHistoryEntry} :
    x ∈ sortHistory l ↔ x ∈ l :=
  (List.perm_insertionSort histLE l).mem_iff

/-- Sorting the history does not change the multiset of ids. -/
theorem mem_map_id_sortHistory {y : Str} {l : List ReplyHistoryEntry} :
    y ∈ (sortHistory l).map (fun e => e.id) ↔ y ∈ l.map (fun e => e.id) :=
  ((List.perm_insertionSort histLE l).map _).mem_iff

/-- The sorted history is ordered newest first. -/
theorem sortHistory_sorted (l : List ReplyHistoryEntry) :
    List.Sorted histLE (sortHistory l) :=
  List.sorted_insertionSort histLE l

/-- Claim C2 (amended): under addToHistory, removeFromHistory and
clearHistory the stored history never exceeds 500 entries, and an
addToHistory on a full 500-entry history (with saveHistory enabled)
stays at 500 by prepending the new entry and evicting an entry of
minimal timestamp, keeping the 499 newest; importData is excluded
because it does not re-apply the cap. -/
theorem history_cap_invariant :
    (∀ (st : StorageState) (ops : List HistOp), st.history.length ≤ 500 →
      (ops.foldl applyHistOp st).history.length ≤ 500) ∧
    (∀ (st : StorageState) (r : ReplyHistoryEntry),
      st.settings.saveHistory = true → st.history.length = 500 →
      (addToHistory st r).history.length = 500 ∧
      ∃ kept ev, sortHistory st.history = kept ++ [ev] ∧
        (addToHistory st r).history = r :: kept ∧
        ∀ x ∈ st.history, ev.timestamp ≤ x.timestamp) := by
  constructor
  · intro st ops
    induction ops generalizing st with
    | nil => intro h; simpa using h
    | cons op rest ih =>
      intro h
      refine ih (applyHistOp st op) ?_
      cases op with
      | add r =>
        by_cases hs : st.settings.saveHistory
        · simp only [applyHistOp, addToHistory, hs, if_true]
          exact List.length_take_le 500 _
        · simpa [applyHistOp, addToHistory, hs] using h
      | remove i =>
        simp only [applyHistOp, removeFromHistory]
        calc ((getReplyHistory st).filter (fun e => !(e.id == i))).length
            ≤ (getReplyHistory st).length := List.length_filter_le _ _
          _ = st.history.length := sortHistory_length _
          _ ≤ 500 := h
      | clear => simp [applyHistOp, clearHistory]
  · intro st r hs hl
    have hSlen : (sortHistory st.history).length = 500 := by
      rw [sortHistory_length, hl]
    have hSne : sortHistory st.history ≠ [] := by
      intro h0; rw [h0] at hSlen; exact absurd hSlen (by decide)
    have htake : (r :: sortHistory st.history).take 500 =
        r :: (sortHistory st.history).take 499 := rfl
    have hdrop : (sortHistory st.history).take 499 = (sortHistory st.history).dropLast := by
      rw [List.dropLast_eq_take, hSlen]
    have hdecomp : (sortHistory st.history).dropLast ++
        [(sortHistory st.history).getLast hSne] = sortHistory st.history :=
      List.dropLast_append_getLast hSne
    have hadd : (addToHistory st r).history =
        r :: (sortHistory st.history).dropLast := by
      simp only [addToHistory, hs, if_true, getReplyHistory]
      rw [htake, hdrop]
    constructor
    · rw [hadd]
      have : (sortHistory st.history).dropLast.length = 499 := by
        rw [List.length_dropLast, hSlen]
      simp [this]
    · refine ⟨(sortHistory st.history).dropLast, (sortHistory st.history).getLast hSne,
        hdecomp.symm, hadd, ?_⟩
      intro x hx
      have hxS : x ∈ (sortHistory st.history).dropLast ++
          [(sortHistory st.history).getLast hSne] := by
        rw [hdecomp]; exact mem_sortHistory.mpr hx
      have hpw : List.Pairwise histLE ((sortHistory st.history).dropLast ++
          [(sortHistory st.history).getLast hSne]) := by
        rw [hdecomp]; exact sortHistory_sorted _
      rcases List.mem_append.mp hxS with hx1 | hx2
      · exact (List.pairwise_append.mp hpw).2.2 x hx1 _ (by simp)
      · have : x = (sortHistory st.history).getLast hSne := by simpa using hx2
        rw [this]

/-- Witness for C2: the cap bound applied to a one-element operation list
on the empty state, and the eviction applied to a full 500-entry state. -/
theorem history_cap_invariant_witness :
    (([HistOp.add (mkEntry 5)].foldl applyHistOp stEmptyHist).history.length ≤ 500) ∧
    ((addToHistory st500 (mkEntry 600)).history.length = 500 ∧
      ∃ kept ev, sortHistory st500.history = kept ++ [ev] ∧
        (addToHistory st500 (mkEntry 600)).history = mkEntry 600 :: kept ∧
        ∀ x ∈ st500.history, ev.timestamp ≤ x.timestamp) :=
  ⟨history_cap_invariant.1 stEmptyHist [HistOp.add (mkEntry 5)] (by simp [stEmptyHist]),
   history_cap_invariant.2 st500 (mkEntry 600) rfl (by simp [st500])⟩

set_option maxRecDepth 8000 in
/-- Counterexample for C2 as stated: importing 501 history entries into
an empty history leaves 501 stored entries, beyond the 500-entry cap. -/
theorem import_overflows_cap :
    (importData stEmptyHist importOverflow).history.length = 501 ∧
    ¬((importData stEmptyHist importOverflow).history.length ≤ 500) := by
  constructor
  · decide
  · decide

/-- Claim C8: the extractor numeric parser reads 1.2k as 1200 and 10M as
10000000. -/
theorem parse_number_suffixes :
    parseNumber "1.2k".toList = some 1200 ∧ parseNumber "10M".toList = some 10000000 := by
  constructor
  · have hl : "1.2k".toList = ['1', '.', '2', 'k'] := rfl
    have e1 : List.filter keepNumChar ['1', '.', '2', 'k'] = ['1', '.', '2', 'k'] := by decide
    have e3 : parseFloatQ ['1', '.', '2', 'k'] =
        some ((digitsToNat ['1'] : ℚ) +
          (digitsToNat ['2'] : ℚ) / 10 ^ (List.length ['2'])) := rfl
    have d1 : digitsToNat ['1'] = 1 := by decide
    have d2 : digitsToNat ['2'] = 2 := by decide
    have e5 : (lowerStr ['1', '.', '2', 'k']).contains 'k' = true := by decide
    rw [hl]
    simp only [parseNumber, e1, e3, d1, d2, e5, List.isEmpty_cons, List.length_cons,
      List.length_nil, if_true, Bool.false_eq_true, if_false]
    norm_num [jsRound]
  · have hl : "10M".toList = ['1', '0', 'M'] := rfl
    have e1 : List.filter keepNumChar ['1', '0', 'M'] = ['1', '0', 'M'] := by decide
    have e3 : parseFloatQ ['1', '0', 'M'] =
        some ((digitsToNat ['1', '0'] : ℚ) +
          (digitsToNat ([] : Str) : ℚ) / 10 ^ (List.length ([] : Str))) := rfl
    have d1 : digitsToNat ['1', '0'] = 10 := by decide
    have d2 : digitsToNat ([] : Str) = 0 := by decide
    have e5 : (lowerStr ['1', '0', 'M']).contains 'k' = false := by decide
    have e6 : (lowerStr ['1', '0', 'M']).contains 'm' = true := by decide
    rw [hl]
    simp only [parseNumber, e1, e3, d1, d2, e5, e6, List.isEmpty_cons, List.length_nil,
      if_true, Bool.false_eq_true, if_false]
    norm_num [jsRound]

/-- Helper: a string of only whitespace has no tokens. -/
theorem wsTokens_nil_of_all_ws (l : Str) (h : ∀ c ∈ l, c.isWhitespace = true) :
    wsTokens l = [] := by
  induction l with
  | nil => simp [wsTokens]
  | cons c rest ih =>
    have hc : c.isWhitespace = true := h c (by simp)
    simp only [wsTokens, hc, if_true]
    exact ih (fun d hd => h d (by simp [hd]))

/-- Helper: leading whitespace does not change the token list. -/
theorem wsTokens_dropWhile_ws (m : Str) :
    wsTokens (m.dropWhile Char.isWhitespace) = wsTokens m := by
  induction m with
  | nil => rfl
  | cons c rest ih =>
    by_cases hc : c.isWhitespace
    · have h1 : wsTokens (c :: rest) = wsTokens rest := by simp [wsTokens, hc]
      rw [List.dropWhile_cons_of_pos hc, ih, h1]
    · rw [List.dropWhile_cons_of_neg hc]

/-- Helper: the token list starts with the maximal leading non-whitespace
run (when there is one) followed by the tokens of the rest. -/
theorem wsTokens_decomp (l : Str) :
    wsTokens l =
      (if l.takeWhile notWs = [] then [] else [l.takeWhile notWs]) ++
        wsTokens ((l.dropWhile notWs).dropWhile Char.isWhitespace) := by
  cases l with
  | nil => simp [wsTokens]
  | cons c rest =>
    by_cases hc : c.isWhitespace
    · have hnot : notWs c = false := by simp [notWs, hc]
      simp [wsTokens, hc, hnot, List.takeWhile_cons, List.dropWhile_cons,
        wsTokens_dropWhile_ws]
    · have hnot : notWs c = true := by simp [notWs, hc]
      simp [wsTokens, hc, hnot, List.takeWhile_cons, List.dropWhile_cons,
        wsTokens_dropWhile_ws]

/-- Helper: keeping the non-empty pieces of the whitespace split yields
exactly the whitespace-separated tokens. -/
theorem filter_splitWs (l : Str) :
    (splitWs l).filter (fun w => decide (w.length > 0)) = wsTokens l := by
  induction l using splitWs.induct with
  | case1 l h =>
    cases l with
    | nil => simp [splitWs, wsTokens]
    | cons c rest =>
      have hall : ∀ x ∈ c :: rest, notWs x = true := fun x hx =>
        List.dropWhile_eq_nil_iff.mp h x hx
      have hc : notWs c = true := hall c (List.mem_cons_self c rest)
      have hcw : c.isWhitespace = false := by
        have h2 := hc; simp [notWs] at h2; exact h2
      have hdroprest : rest.dropWhile notWs = [] := by
        rw [List.dropWhile_cons_of_pos hc] at h; exact h
      have htakerest : rest.takeWhile notWs = rest :=
        List.takeWhile_eq_self_iff.mpr (fun x hx => hall x (List.mem_cons_of_mem c hx))
      simp [splitWs, h, wsTokens, hcw, hdroprest, htakerest, List.takeWhile_cons, hc]
  | case2 l h ih =>
    rw [wsTokens_decomp l]
    rw [splitWs.eq_def, dif_neg h, List.filter_cons]
    by_cases htok : l.takeWhile notWs = []
    · simp [htok, ih]
    · have hpos : (decide ((l.takeWhile notWs).length > 0)) = true := by
        simp only [decide_eq_true_eq, gt_iff_lt, List.length_pos]
        exact htok
      simp [hpos, htok, ih]

/-- Helper: trailing whitespace does not change the token list. -/
theorem wsTokens_append_ws (l ws : Str) (hws : ∀ c ∈ ws, c.isWhitespace = true) :
    wsTokens (l ++ ws) = wsTokens l := by
  induction l using wsTokens.induct with
  | case1 => simpa [wsTokens] using wsTokens_nil_of_all_ws ws hws
  | case2 c rest hc ih =>
    have h1 : wsTokens (c :: rest) = wsTokens rest := by simp [wsTokens, hc]
    have h2 : wsTokens ((c :: rest) ++ ws) = wsTokens (rest ++ ws) := by
      simp [wsTokens, hc]
    rw [h2, ih, h1]
  | case3 c rest hc ih =>
    have hL : wsTokens (c :: (rest ++ ws)) =
        (c :: (rest ++ ws).takeWhile notWs) :: wsTokens ((rest ++ ws).dropWhile notWs) := by
      simp [wsTokens, hc]
    have hR : wsTokens (c :: rest) =
        (c :: rest.takeWhile notWs) :: wsTokens (rest.dropWhile notWs) := by
      simp [wsTokens, hc]
    rw [show (c :: rest) ++ ws = c :: (rest ++ ws) from rfl, hL, hR]
    by_cases hdrop : rest.dropWhile notWs = []
    · have hallrest : ∀ x ∈ rest, notWs x = true := List.dropWhile_eq_nil_iff.mp hdrop
      rw [List.takeWhile_append_of_pos hallrest, List.dropWhile_append_of_pos hallrest]
      have htws : ws.takeWhile notWs = [] := by
        cases ws with
        | nil => rfl
        | cons w wrest =>
          have hw : w.isWhitespace = true := hws w (List.mem_cons_self _ _)
          simp [List.takeWhile_cons, notWs, hw]
      have hdws : ws.dropWhile notWs = ws := by
        cases ws with
        | nil => rfl
        | cons w wrest =>
          have hw : w.isWhitespace = true := hws w (List.mem_cons_self _ _)
          simp [List.dropWhile_cons, notWs, hw]
      rw [htws, hdws, List.append_nil, wsTokens_nil_of_all_ws ws hws,
        List.takeWhile_eq_self_iff.mpr hallrest, hdrop]
      simp [wsTokens]
    · have hlen : (rest.takeWhile notWs).length ≠ rest.length := by
        intro heq
        have heqtake : rest.takeWhile notWs = rest :=
          (List.takeWhile_sublist notWs).eq_of_length heq
        have h2 := List.takeWhile_append_dropWhile notWs rest
        rw [heqtake] at h2
        have : rest ++ rest.dropWhile notWs = rest ++ [] := by
          rw [h2, List.append_nil]
        exact hdrop (List.append_cancel_left this)
      have htkw : (rest ++ ws).takeWhile notWs = rest.takeWhile notWs := by
        rw [List.takeWhile_append, if_neg hlen]
      have hdpw : (rest ++ ws).dropWhile notWs = rest.dropWhile notWs ++ ws := by
        rw [List.dropWhile_append, if_neg (by simpa [List.isEmpty_iff] using hdrop)]
      rw [htkw, hdpw, ih]
/-- Helper: trimming does not change the token list. -/
theorem wsTokens_jsTrim (l : Str) : wsTokens (jsTrim l) = wsTokens l := by
  have hm : List.rdropWhile Char.isWhitespace (l.dropWhile Char.isWhitespace) ++
      List.rtakeWhile Char.isWhitespace (l.dropWhile Char.isWhitespace) =
      l.dropWhile Char.isWhitespace := by
    rw [List.rdropWhile, List.rtakeWhile, ← List.reverse_append,
      List.takeWhile_append_dropWhile, List.reverse_reverse]
  calc wsTokens (jsTrim l)
      = wsTokens (jsTrim l ++
          List.rtakeWhile Char.isWhitespace (l.dropWhile Char.isWhitespace)) :=
        (wsTokens_append_ws _ _ (fun c hc => List.mem_rtakeWhile_imp hc)).symm
    _ = wsTokens (l.dropWhile Char.isWhitespace) := by rw [jsTrim, hm]
    _ = wsTokens l := wsTokens_dropWhile_ws l

/-- Helper: on a non-empty string without leading or trailing whitespace,
every piece of the whitespace split is non-empty. -/
theorem splitWs_pieces_ne_nil : ∀ l : Str, l ≠ [] →
    l.head?.all notWs = true → l.getLast?.all notWs = true →
    ∀ w ∈ splitWs l, w ≠ [] := by
  intro l
  induction l using splitWs.induct with
  | case1 l h =>
    intro hne hhead hlast w hw
    rw [splitWs.eq_def, dif_pos h] at hw
    have hall := List.dropWhile_eq_nil_iff.mp h
    have htake : l.takeWhile notWs = l := List.takeWhile_eq_self_iff.mpr hall
    have hwl : w = l := by
      rw [htake] at hw; simpa using hw
    rw [hwl]; exact hne
  | case2 l h ih =>
    intro hne hhead hlast w hw
    rw [splitWs.eq_def, dif_neg h] at hw
    rcases List.mem_cons.mp hw with hw1 | hw2
    · obtain ⟨c, rest, rfl⟩ := List.exists_cons_of_ne_nil hne
      have hch : notWs c = true := by
        simpa using hhead
      rw [hw1, List.takeWhile_cons, hch]
      simp
    · have hm_ne : l.dropWhile notWs ≠ [] := h
      have hml : (l.dropWhile notWs).getLast? = l.getLast? := by
        obtain ⟨t, ht⟩ := List.dropWhile_suffix (l := l) notWs
        conv_rhs => rw [← ht]
        rw [List.getLast?_append, List.getLast?_eq_getLast _ hm_ne, Option.or_some]
      have hrest2_ne : (l.dropWhile notWs).dropWhile Char.isWhitespace ≠ [] := by
        intro h0
        have hallm := List.dropWhile_eq_nil_iff.mp h0
        have hlastm : ((l.dropWhile notWs).getLast hm_ne).isWhitespace = true :=
          hallm _ (List.getLast_mem hm_ne)
        have hsome : l.getLast? = some ((l.dropWhile notWs).getLast hm_ne) := by
          rw [← hml, List.getLast?_eq_getLast _ hm_ne]
        rw [hsome] at hlast
        simp [notWs, hlastm] at hlast
      have hrest2_head :
          ((l.dropWhile notWs).dropWhile Char.isWhitespace).head?.all notWs = true := by
        rw [List.head?_eq_head hrest2_ne]
        have hh := List.head_dropWhile_not Char.isWhitespace (l.dropWhile notWs) hrest2_ne
        simp [notWs, hh]
      have hrest2_last :
          ((l.dropWhile notWs).dropWhile Char.isWhitespace).getLast?.all notWs = true := by
        obtain ⟨t2, ht2⟩ := List.dropWhile_suffix (l := l.dropWhile notWs) Char.isWhitespace
        have hgl : ((l.dropWhile notWs).dropWhile Char.isWhitespace).getLast? =
            (l.dropWhile notWs).getLast? := by
          conv_rhs => rw [← ht2]
          rw [List.getLast?_append, List.getLast?_eq_getLast _ hrest2_ne, Option.or_some]
        rw [hgl, hml]
        exact hlast
      exact ih hrest2_ne hrest2_head hrest2_last w hw2

/-- Helper: on a non-empty string without leading or trailing whitespace,
the raw split length equals the token count. -/
theorem serverWordCount_eq_tokens (l : Str) (hne : l ≠ [])
    (hh : l.head?.all notWs = true) (hl : l.getLast?.all notWs = true) :
    serverWordCount l = (wsTokens l).length := by
  have hp := splitWs_pieces_ne_nil l hne hh hl
  have hfilter : (splitWs l).filter (fun w => decide (w.length > 0)) = splitWs l :=
    List.filter_eq_self.mpr (fun w hw => by
      simp only [decide_eq_true_eq, gt_iff_lt, List.length_pos]
      exact hp w hw)
  unfold serverWordCount
  rw [← filter_splitWs l, hfilter]

/-- Claim C4: the wordCount of a generated reply equals the number of
whitespace-separated non-empty tokens of the returned content, for the
extension countWords on any text and for the server word count on the
content string the server actually returns. -/
theorem word_count_correct :
    (∀ text : Str, countWords text = (wsTokens text).length) ∧
    (∀ raw : Option Str,
      serverWordCount (serverContentOf raw) = (wsTokens (serverContentOf raw)).length) := by
  constructor
  · intro text
    unfold countWords
    rw [filter_splitWs (jsTrim text), wsTokens_jsTrim]
  · intro raw
    rcases raw with _ | r
    · exact serverWordCount_eq_tokens _ (by decide) (by decide) (by decide)
    · simp only [serverContentOf]
      by_cases hemp : (jsTrim r).isEmpty
      · rw [if_pos hemp]
        exact serverWordCount_eq_tokens _ (by decide) (by decide) (by decide)
      · rw [if_neg hemp]
        have hne : jsTrim r ≠ [] := by
          simpa [List.isEmpty_iff] using hemp
        have hlast : (jsTrim r).getLast?.all notWs = true := by
          rw [List.getLast?_eq_getLast _ hne]
          have hnw := List.rdropWhile_last_not (p := Char.isWhitespace)
            (l := r.dropWhile Char.isWhitespace) hne
          simpa [notWs] using hnw
        have hhead : (jsTrim r).head?.all notWs = true := by
          obtain ⟨t, ht⟩ := List.rdropWhile_prefix (l := r.dropWhile Char.isWhitespace)
            Char.isWhitespace
          have hdne : r.dropWhile Char.isWhitespace ≠ [] := by
            intro h0
            apply hne
            unfold jsTrim
            rw [h0, List.rdropWhile_nil]
          have ht' : jsTrim r ++ t = r.dropWhile Char.isWhitespace := ht
          have hh1 : (jsTrim r).head? = (r.dropWhile Char.isWhitespace).head? := by
            conv_rhs => rw [← ht']
            rw [List.head?_append, List.head?_eq_head hne, Option.or_some]
          rw [hh1, List.head?_eq_head hdne]
          have hh2 := List.head_dropWhile_not Char.isWhitespace r hdne
          simp [notWs, hh2]
        exact serverWordCount_eq_tokens _ hne hhead hlast

/-- Claim C6: importData never changes the stored API key, and its
history merge keeps every existing entry and adds exactly those imported
entries whose id is not already present. -/
theorem import_preserves_key_and_merges_by_id (st : StorageState) (d : ImportPayload) :
    (importData st d).settings.openaiApiKey = st.settings.openaiApiKey ∧
    ∀ x, x ∈ (importData st d).history ↔
      (x ∈ st.history ∨
        (x ∈ d.history.getD [] ∧ x.id ∉ st.history.map (fun e => e.id))) := by
  obtain ⟨ds, dh⟩ := d
  constructor
  · rcases ds with _ | ps <;> rcases dh with _ | imp <;>
      simp [importData, updateSettings]
  · intro x
    rcases ds with _ | ps <;> rcases dh with _ | imp <;>
      simp [importData, updateSettings, getReplyHistory, List.mem_filter,
        mem_sortHistory, mem_map_id_sortHistory]

end ReplyGuyAI
